import Mathlib

/-!
Verification of the voice-calling application (relay in server/index.js,
client in client/src/App.tsx).

The relay's state (the `rooms` and `users` JavaScript Maps) and the client's
React state (`AppState` plus the `connectionAttempts` set) are embedded as
plain Lean structures; JavaScript `Map`s become association lists with the
same get/set/delete/values semantics (insertion order preserved, one binding
per key).  Each socket event handler becomes a pure function from state to
state paired with the list of messages it emits.
-/

namespace VoiceApp

/-- Association-list lookup, mirroring JavaScript `Map.get` (first binding of
the key; for maps built by `aset`/`adel` from the empty map the key is unique). -/
def aget {β : Type} (m : List (String × β)) (k : String) : Option β :=
  match m with
  | [] => none
  | (k₀, v) :: rest => if k₀ = k then some v else aget rest k

/-- Association-list update, mirroring JavaScript `Map.set`: replaces the
binding in place if the key is present (keeping its position, as `Map.set`
keeps insertion order), otherwise appends the new binding at the end. -/
def aset {β : Type} (m : List (String × β)) (k : String) (v : β) : List (String × β) :=
  match m with
  | [] => [(k, v)]
  | (k₀, v₀) :: rest => if k₀ = k then (k, v) :: rest else (k₀, v₀) :: aset rest k v

/-- Association-list removal, mirroring JavaScript `Map.delete`. -/
def adel {β : Type} (m : List (String × β)) (k : String) : List (String × β) :=
  m.filter (fun p => p.1 ≠ k)

/-- Membership test, mirroring JavaScript `Map.has`. -/
def ahas {β : Type} (m : List (String × β)) (k : String) : Bool :=
  (aget m k).isSome

/-- Values in insertion order, mirroring `Array.from(map.values())`. -/
def avalues {β : Type} (m : List (String × β)) : List β :=
  m.map Prod.snd

/-- A user record, as stored by the relay in the `users` map (and mirrored by
the client's `User` interface): `{ id, username, roomCode, isAudioEnabled }`. -/
structure SUser where
  id : String
  username : String
  roomCode : String
  isAudioEnabled : Bool
deriving DecidableEq, Repr

/-- A chat message as built by the send-message handler: `{ id, text, sender,
senderId, timestamp, type }`.  The uuid and the timestamp are produced by the
environment, so they enter the model as parameters. -/
structure Message where
  id : String
  text : String
  sender : String
  senderId : String
  timestamp : Nat
  msgType : String
deriving DecidableEq, Repr

/-- A room, as stored in the relay's `rooms` map: `{ code, created, users,
messages }`, with `users` a Map from socket id to user record. -/
structure Room where
  code : String
  created : Nat
  users : List (String × SUser)
  messages : List Message
deriving DecidableEq, Repr

/-- The relay's whole mutable state: the module-level `rooms` and `users` Maps. -/
structure ServerState where
  rooms : List (String × Room)
  users : List (String × SUser)
deriving DecidableEq, Repr

/-- Recipient designator of a socket.io emission, as used by the relay:
`socket.emit` (to the sender only), `socket.to(name).emit` (to every socket in
the room called `name` except the sender), `io.to(name).emit` (to every socket
in that room, the sender included). -/
inductive Recipient where
  | toSender : Recipient
  | toRoomExceptSender : String → Recipient
  | toRoomAll : String → Recipient
deriving DecidableEq, Repr

/-- Events the relay emits, with their payloads. -/
inductive SEvent where
  | error : String → SEvent
  | roomCreated : String → List SUser → SEvent
  | roomJoined : String → List SUser → List Message → SEvent
  | userJoined : SUser → List SUser → SEvent
  | userLeft : String → List SUser → SEvent
  | newMessage : Message → SEvent
  | offer : String → String → SEvent
  | answer : String → String → SEvent
  | iceCandidate : String → String → SEvent
  | userMediaChanged : String → Bool → SEvent
deriving DecidableEq, Repr

/-- The join-room handler.  When the code is not a live room it emits
`error { message: 'Room not found' }` to the sender and returns.  Otherwise it
records the user in `users`, adds it to the room's member map, notifies the
other room members with `user-joined` and answers the sender with
`room-joined` carrying the post-insertion membership snapshot. -/
def joinRoom (s : ServerState) (sid roomCode username : String) :
    ServerState × List (Recipient × SEvent) :=
  match aget s.rooms roomCode with
  | none => (s, [(Recipient.toSender, SEvent.error "Room not found")])
  | some room =>
      let u : SUser := ⟨sid, username, roomCode, true⟩
      let room' : Room := { room with users := aset room.users sid u }
      ({ rooms := aset s.rooms roomCode room', users := aset s.users sid u },
       [(Recipient.toRoomExceptSender roomCode,
           SEvent.userJoined u (avalues room'.users)),
        (Recipient.toSender,
           SEvent.roomJoined roomCode (avalues room'.users) room'.messages)])

/-- The create-room handler.  The room code comes from `generateRoomCode()`,
a bare `Math.random().toString(36).substring(2, 8).toUpperCase()` with no
look-up of the live room set, so the generated code is an unconstrained input
here.  The handler stores the new room under that code (a `Map.set`, which
replaces any existing binding), records the creator in `users` and in the
room, and emits `room-created` to the sender. -/
def createRoom (s : ServerState) (sid username code : String) (now : Nat) :
    ServerState × List (Recipient × SEvent) :=
  let u : SUser := ⟨sid, username, code, true⟩
  let room : Room := { code := code, created := now, users := aset [] sid u, messages := [] }
  ({ rooms := aset s.rooms code room, users := aset s.users sid u },
   [(Recipient.toSender, SEvent.roomCreated code (avalues room.users))])

/-- The offer handler: `socket.to(data.target).emit('offer', { offer, sender })`. -/
def relayOffer (s : ServerState) (sid target payload : String) :
    ServerState × List (Recipient × SEvent) :=
  (s, [(Recipient.toRoomExceptSender target, SEvent.offer payload sid)])

/-- The answer handler: `socket.to(data.target).emit('answer', { answer, sender })`. -/
def relayAnswer (s : ServerState) (sid target payload : String) :
    ServerState × List (Recipient × SEvent) :=
  (s, [(Recipient.toRoomExceptSender target, SEvent.answer payload sid)])

/-- The ice-candidate handler:
`socket.to(data.target).emit('ice-candidate', { candidate, sender })`. -/
def relayIce (s : ServerState) (sid target payload : String) :
    ServerState × List (Recipient × SEvent) :=
  (s, [(Recipient.toRoomExceptSender target, SEvent.iceCandidate payload sid)])

/-- Delivery of `socket.to(name)` when `name` is a socket id: every socket
automatically belongs to the room named by its own id, whose only member it
is, and `socket.to` excludes the sender.  So the recipients are exactly the
target socket, unless the sender targeted itself. -/
def idRoomRecipients (sender target : String) : List String :=
  if target = sender then [] else [target]

/-- The send-message handler: looks up the sender (returning silently when
unknown), looks up its room (again returning silently when absent), appends
the built message to the room history and broadcasts `new-message` to the
whole room, sender included. -/
def sendMessage (s : ServerState) (sid text mid : String) (now : Nat) :
    ServerState × List (Recipient × SEvent) :=
  match aget s.users sid with
  | none => (s, [])
  | some user =>
      match aget s.rooms user.roomCode with
      | none => (s, [])
      | some room =>
          let m : Message := ⟨mid, text, user.username, sid, now, "text"⟩
          let room' : Room := { room with messages := room.messages ++ [m] }
          ({ s with rooms := aset s.rooms user.roomCode room' },
           [(Recipient.toRoomAll user.roomCode, SEvent.newMessage m)])

/-- The toggle-audio handler: flips the sender's `isAudioEnabled` flag and
broadcasts `user-media-changed` to the rest of the room.  The JavaScript code
mutates the user object, which the room's member map holds by reference, so
the flip is reflected in both maps whenever the room still holds the entry. -/
def toggleAudio (s : ServerState) (sid : String) :
    ServerState × List (Recipient × SEvent) :=
  match aget s.users sid with
  | none => (s, [])
  | some user =>
      let u' : SUser := { user with isAudioEnabled := !user.isAudioEnabled }
      let rooms' :=
        match aget s.rooms user.roomCode with
        | none => s.rooms
        | some room =>
            if ahas room.users sid then
              aset s.rooms user.roomCode { room with users := aset room.users sid u' }
            else s.rooms
      ({ rooms := rooms', users := aset s.users sid u' },
       [(Recipient.toRoomExceptSender user.roomCode,
           SEvent.userMediaChanged sid u'.isAudioEnabled)])

/-- The disconnect handler: a no-op for a socket the relay never saw as a
member.  Otherwise it removes the member from its room, notifies the room
with `user-left` carrying the post-removal snapshot, deletes the room when it
became empty, and finally removes the user record. -/
def disconnect (s : ServerState) (sid : String) :
    ServerState × List (Recipient × SEvent) :=
  match aget s.users sid with
  | none => (s, [])
  | some user =>
      match aget s.rooms user.roomCode with
      | none => ({ s with users := adel s.users sid }, [])
      | some room =>
          let room' : Room := { room with users := adel room.users sid }
          let rooms' :=
            if room'.users.length = 0 then adel s.rooms user.roomCode
            else aset s.rooms user.roomCode room'
          ({ rooms := rooms', users := adel s.users sid },
           [(Recipient.toRoomExceptSender user.roomCode,
               SEvent.userLeft sid (avalues room'.users))])

/-- One inbound relay event, with the environment-chosen data (generated room
code, uuid, timestamp) as explicit fields. -/
inductive ServerEvent where
  | joinRoomEvt : String → String → String → ServerEvent
  | createRoomEvt : String → String → String → Nat → ServerEvent
  | offerEvt : String → String → String → ServerEvent
  | answerEvt : String → String → String → ServerEvent
  | iceEvt : String → String → String → ServerEvent
  | sendMessageEvt : String → String → String → Nat → ServerEvent
  | toggleAudioEvt : String → ServerEvent
  | disconnectEvt : String → ServerEvent
deriving DecidableEq, Repr

/-- Dispatch of one inbound socket event to its relay handler. -/
def serverStep (s : ServerState) (e : ServerEvent) :
    ServerState × List (Recipient × SEvent) :=
  match e with
  | .joinRoomEvt sid code name => joinRoom s sid code name
  | .createRoomEvt sid name code now => createRoom s sid name code now
  | .offerEvt sid target p => relayOffer s sid target p
  | .answerEvt sid target p => relayAnswer s sid target p
  | .iceEvt sid target p => relayIce s sid target p
  | .sendMessageEvt sid text mid now => sendMessage s sid text mid now
  | .toggleAudioEvt sid => toggleAudio s sid
  | .disconnectEvt sid => disconnect s sid

/-- No live room is empty: every room bound in the rooms map has at least one
member. -/
def noEmptyRooms (s : ServerState) : Prop :=
  ∀ code room, aget s.rooms code = some room → room.users ≠ []

/-- Signaling states of an `RTCPeerConnection` that the client inspects:
`stable` (also the state of a freshly constructed connection), the two
mid-handshake states, and `closed`. -/
inductive Signaling where
  | stable : Signaling
  | haveLocalOffer : Signaling
  | haveRemoteOffer : Signaling
  | closed : Signaling
deriving DecidableEq, Repr

/-- One peer connection as the client observes it.  `pcId` is the allocation
number of the underlying `RTCPeerConnection` object (so two distinct creations
are distinguishable), `remoteDescSet`/`localDescSet` record whether
`setRemoteDescription`/`setLocalDescription` have succeeded, and
`appliedCandidates` the candidates accepted by `addIceCandidate`.
`tracks` are the local tracks attached by `addTrack`. -/
structure PC where
  pcId : Nat
  signaling : Signaling
  remoteDescSet : Bool
  localDescSet : Bool
  appliedCandidates : List String
  tracks : List String
deriving DecidableEq, Repr

/-- The client's state: the relevant fields of React's `AppState` plus the
`connectionAttempts` set and a fresh-id counter for connection allocation. -/
structure ClientState where
  currentUserId : String
  roomCode : String
  users : List SUser
  messages : List Message
  isInCall : Bool
  isAudioEnabled : Bool
  hasLocalStream : Bool
  localTracks : List String
  peerConnections : List (String × PC)
  connectionAttempts : List String
  nextPCId : Nat
deriving DecidableEq, Repr

/-- Messages the client sends back through the socket while handling events. -/
inductive ClientEmit where
  | offerMsg : String → ClientEmit
  | answerMsg : String → String → ClientEmit
  | iceMsg : String → String → ClientEmit
deriving DecidableEq, Repr

/-- Allocation of a fresh `RTCPeerConnection` (`createPeerConnection`): the
new connection starts in signaling state stable with no descriptions set. -/
def createPC (s : ClientState) : PC × ClientState :=
  (⟨s.nextPCId, Signaling.stable, false, false, [], []⟩,
   { s with nextPCId := s.nextPCId + 1 })

/-- `cleanupPeerConnection`: when a connection exists for the user it is
closed and deleted from the map (the audio element removal has no counterpart
in this state).  The `connectionAttempts` set is not touched. -/
def cleanupPC (s : ClientState) (uid : String) : ClientState :=
  match aget s.peerConnections uid with
  | some _ => { s with peerConnections := adel s.peerConnections uid }
  | none => s

/-- `handleOffer`: an existing closed connection is first cleaned up; a
missing connection is created fresh (in Answerer role; note the source adds
no local tracks on this path).  Then the glare guard returns when the
connection is already in have-local-offer or have-remote-offer.  Otherwise the
offer is set as remote description, an answer is created, set locally
(signaling ends stable) and emitted to the sender. -/
def handleOffer (s : ClientState) (payload sender : String) :
    ClientState × List ClientEmit :=
  let s1 :=
    match aget s.peerConnections sender with
    | some pc =>
        if pc.signaling = Signaling.closed then cleanupPC s sender else s
    | none => s
  let step2 : PC × ClientState :=
    match aget s1.peerConnections sender with
    | some pc => (pc, s1)
    | none =>
        let (pc, sn) := createPC s1
        (pc, { sn with peerConnections := aset sn.peerConnections sender pc })
  let pc := step2.1
  let s2 := step2.2
  if pc.signaling = Signaling.haveLocalOffer ∨ pc.signaling = Signaling.haveRemoteOffer then
    (s2, [])
  else
    let pc' : PC :=
      { pc with signaling := Signaling.stable, remoteDescSet := true, localDescSet := true }
    ({ s2 with peerConnections := aset s2.peerConnections sender pc' },
     [ClientEmit.answerMsg sender payload])

/-- `handleAnswer`: a missing connection is only logged; with a connection not
in have-local-offer the handler returns untouched; in have-local-offer the
answer is set as remote description and signaling reaches stable. -/
def handleAnswer (s : ClientState) (payload sender : String) :
    ClientState × List ClientEmit :=
  match aget s.peerConnections sender with
  | none => (s, [])
  | some pc =>
      if pc.signaling ≠ Signaling.haveLocalOffer then (s, [])
      else
        let pc' : PC := { pc with signaling := Signaling.stable, remoteDescSet := true }
        ({ s with peerConnections := aset s.peerConnections sender pc' }, [])

/-- `handleIceCandidate`: with no connection, or a closed one, the handler
only logs.  Otherwise it calls `addIceCandidate` directly: the call succeeds
when a remote description is set; before any remote description the
underlying transport rejects it and the surrounding catch drops the
candidate (no queue exists anywhere in the client). -/
def handleIceCandidate (s : ClientState) (cand sender : String) :
    ClientState × List ClientEmit :=
  match aget s.peerConnections sender with
  | none => (s, [])
  | some pc =>
      if pc.signaling = Signaling.closed then (s, [])
      else if pc.remoteDescSet then
        let pc' : PC := { pc with appliedCandidates := pc.appliedCandidates ++ [cand] }
        ({ s with peerConnections := aset s.peerConnections sender pc' }, [])
      else (s, [])

/-- Addition to the `connectionAttempts` set (`new Set(prev).add(id)`). -/
def setAdd (l : List String) (x : String) : List String :=
  if l.contains x then l else l ++ [x]

/-- Removal from the `connectionAttempts` set (`newSet.delete(id)`). -/
def setDel (l : List String) (x : String) : List String :=
  l.filter (fun y => y ≠ x)

/-- The user-joined listener: it stores the membership snapshot, then — when a
local stream exists, the newcomer is not ourselves, no connection is mapped
for it and no attempt is pending — records the attempt, creates a connection
in Offerer role with the local tracks attached, and asks the transport for an
offer.  The offer creation is asynchronous: on success the offer becomes the
local description and is emitted, and the attempt entry is left in place; on
failure the attempt entry is deleted (the connection stays mapped).  The
outcome of the asynchronous call is the `offerSucceeds` input. -/
def userJoinedClient (s : ClientState) (newUser : SUser) (snapshot : List SUser)
    (offerSucceeds : Bool) : ClientState × List ClientEmit :=
  let s1 := { s with users := snapshot }
  if s.hasLocalStream && (newUser.id != s.currentUserId)
      && !(ahas s.peerConnections newUser.id)
      && !(s.connectionAttempts.contains newUser.id) then
    let s2 := { s1 with connectionAttempts := setAdd s1.connectionAttempts newUser.id }
    let (pc0, s3) := createPC s2
    let pc : PC := { pc0 with tracks := s.localTracks }
    let s4 := { s3 with peerConnections := aset s3.peerConnections newUser.id pc }
    if offerSucceeds then
      let pc' : PC := { pc with signaling := Signaling.haveLocalOffer, localDescSet := true }
      ({ s4 with peerConnections := aset s4.peerConnections newUser.id pc' },
       [ClientEmit.offerMsg newUser.id])
    else
      ({ s4 with connectionAttempts := setDel s4.connectionAttempts newUser.id }, [])
  else (s1, [])

/-- The user-left listener: cleans up the departed user's connection and
stores the membership snapshot.  `connectionAttempts` is not touched. -/
def userLeftClient (s : ClientState) (uid : String) (snapshot : List SUser) :
    ClientState × List ClientEmit :=
  ({ cleanupPC s uid with users := snapshot }, [])

/-- One iteration body of `startCall`'s loop over the membership list, for a
user that passed both guards: create a connection, attach the freshly
acquired tracks, store it, create and set a local offer and emit it. -/
def offerNewConn (tracks : List String) (uid : String)
    (acc : ClientState × List ClientEmit) : ClientState × List ClientEmit :=
  let (pc0, s1) := createPC acc.1
  let pc : PC :=
    { pc0 with
        tracks := tracks
        signaling := Signaling.haveLocalOffer
        localDescSet := true }
  ({ s1 with peerConnections := aset s1.peerConnections uid pc },
   acc.2 ++ [ClientEmit.offerMsg uid])

/-- `startCall` after the microphone was granted (`tracks` is the acquired
stream's track list): the stream is stored, then for every member of the
captured `state.users` other than ourselves and without an entry in the
captured `state.peerConnections` (the code closes over the pre-call state, so
both guards read the initial snapshot) a connection is created in Offerer
role.  `connectionAttempts` plays no part on this path. -/
def startCall (s : ClientState) (tracks : List String) :
    ClientState × List ClientEmit :=
  let s0 := { s with hasLocalStream := true, localTracks := tracks }
  s.users.foldl
    (fun acc u =>
      if u.id != s.currentUserId && !(ahas s.peerConnections u.id) then
        offerNewConn tracks u.id acc
      else acc)
    (s0, [])

/-- Inbound socket events of the client, as delivered by the relay.  The
user-joined case carries the outcome of the asynchronous offer creation. -/
inductive ClientEvent where
  | roomCreatedEvt : String → List SUser → ClientEvent
  | roomJoinedEvt : String → List SUser → List Message → ClientEvent
  | userJoinedEvt : SUser → List SUser → Bool → ClientEvent
  | userLeftEvt : String → List SUser → ClientEvent
  | newMessageEvt : Message → ClientEvent
  | errorEvt : String → ClientEvent
  | offerEvt : String → String → ClientEvent
  | answerEvt : String → String → ClientEvent
  | iceEvt : String → String → ClientEvent
  | userMediaChangedEvt : String → Bool → ClientEvent
deriving DecidableEq, Repr

/-- The event names for which the socket-listeners effect registers a
handler (`state.socket.on(...)`).  The `onAny` debug listener and the
connect/disconnect/connect-error listeners of the initialization effect only
write to the console. -/
def handledClientEvents : List String :=
  ["room-created", "room-joined", "user-joined", "user-left",
   "new-message", "error", "offer", "answer", "ice-candidate"]

/-- Dispatch of one inbound socket event to the handler of a single listener
generation, applied to the state that listener reads.  The source's listeners
effect has no cleanup and re-registers when its dependencies change, so the
running program additionally keeps stale listeners alive; that accumulation
is modeled separately by `ClientWorld`/`deliverUserJoined` below.  The
relay's user-media-changed broadcast has no registered handler in any
generation, so delivering it leaves the client state untouched and emits
nothing; the error handler clears a timeout and opens an alert, touching no
React state. -/
def clientDispatch (s : ClientState) (e : ClientEvent) :
    ClientState × List ClientEmit :=
  match e with
  | .roomCreatedEvt code usersL =>
      ({ s with roomCode := code, users := usersL, isInCall := true }, [])
  | .roomJoinedEvt code usersL msgs =>
      ({ s with roomCode := code, users := usersL, messages := msgs, isInCall := true }, [])
  | .userJoinedEvt u snap ok => userJoinedClient s u snap ok
  | .userLeftEvt uid snap => userLeftClient s uid snap
  | .newMessageEvt m => ({ s with messages := s.messages ++ [m] }, [])
  | .errorEvt _ => (s, [])
  | .offerEvt p sender => handleOffer s p sender
  | .answerEvt p sender => handleAnswer s p sender
  | .iceEvt c sender => handleIceCandidate s c sender
  | .userMediaChangedEvt _ _ => (s, [])

/-- Sample relay user: Alice on socket x1 in room AB12CD. -/
def aliceU : SUser := ⟨"x1", "Alice", "AB12CD", true⟩

/-- Sample relay user: Bob on socket x2. -/
def bobS : SUser := ⟨"x2", "Bob", "AB12CD", true⟩

/-- Sample room AB12CD whose only member is Alice. -/
def roomA : Room := ⟨"AB12CD", 0, [("x1", aliceU)], []⟩

/-- Sample relay state holding just that room. -/
def srv0 : ServerState := ⟨[("AB12CD", roomA)], [("x1", aliceU)]⟩

/-- Sample client-side self user. -/
def selfU : SUser := ⟨"u1", "Ann", "AB12CD", true⟩

/-- Sample client-side remote user. -/
def bobU : SUser := ⟨"u2", "Bob", "AB12CD", true⟩

/-- Sample client state: in a call with Bob, local stream acquired, no peer
connections and no pending attempts yet. -/
def cs0 : ClientState :=
  { currentUserId := "u1", roomCode := "AB12CD", users := [selfU, bobU],
    messages := [], isInCall := true, isAudioEnabled := true,
    hasLocalStream := true, localTracks := ["mic0"],
    peerConnections := [], connectionAttempts := [], nextPCId := 0 }

/-- Client state after the user-joined handler initiated a connection to Bob:
that connection is in have-local-offer with no remote description yet. -/
def cs1 : ClientState := (userJoinedClient cs0 bobU [selfU, bobU] true).1

/-- Client state after answering an incoming offer from Bob: that connection
is stable with a remote description set. -/
def cs2 : ClientState := (handleOffer cs0 "offer0" "u2").1

/-- The connection held by cs1 for Bob. -/
def pcO : PC := ⟨0, Signaling.haveLocalOffer, false, true, [], ["mic0"]⟩

/-- The connection held by cs2 for Bob. -/
def pcW : PC := ⟨0, Signaling.stable, true, true, [], []⟩

/-- A client together with its registered socket listeners and connection
objects.  The socket-listeners effect returns no cleanup and re-runs whenever
its dependencies change (its handler callbacks are rebuilt on every
peerConnections change), so each run registers fresh listeners without
removing the old ones: every accumulated listener still runs on every event,
guarding on the state its render captured.  `joinedListeners` holds, in
registration order, the state captured by each registered user-joined
listener.  `liveConns` tracks the connection objects created and not yet
closed — an (allocation id, remote id) pair is appended where the source runs
`new RTCPeerConnection` and removed only where the source calls `close()`;
a map overwrite drops the reference without closing. -/
structure ClientWorld where
  cur : ClientState
  joinedListeners : List ClientState
  liveConns : List (Nat × String)
deriving DecidableEq, Repr

/-- One invocation of the user-joined listener registered by the render that
captured `cap`: the source's guards read the captured `state` and
`connectionAttempts` (the closure variables), while the functional
`setState`/`setConnectionAttempts` updates apply to the current state
`w.cur`.  A passed guard creates a fresh connection object, which joins the
live set; the `Map.set` that stores it closes nothing, so a displaced mapped
connection stays live.  With `cap = w.cur` this coincides with
`userJoinedClient` on the state. -/
def userJoinedListenerRun (cap : ClientState) (newUser : SUser)
    (snapshot : List SUser) (offerSucceeds : Bool) (w : ClientWorld) :
    ClientWorld × List ClientEmit :=
  let cur1 := { w.cur with users := snapshot }
  if cap.hasLocalStream && (newUser.id != cap.currentUserId)
      && !(ahas cap.peerConnections newUser.id)
      && !(cap.connectionAttempts.contains newUser.id) then
    let cur2 := { cur1 with connectionAttempts := setAdd cur1.connectionAttempts newUser.id }
    let (pc0, cur3) := createPC cur2
    let pc : PC := { pc0 with tracks := cap.localTracks }
    let live1 := w.liveConns ++ [(pc.pcId, newUser.id)]
    let cur4 := { cur3 with peerConnections := aset cur3.peerConnections newUser.id pc }
    if offerSucceeds then
      let pc' : PC := { pc with signaling := Signaling.haveLocalOffer, localDescSet := true }
      let cur5 := { cur4 with peerConnections := aset cur4.peerConnections newUser.id pc' }
      ({ w with
          cur := cur5
          liveConns := live1 },
       [ClientEmit.offerMsg newUser.id])
    else
      ({ w with
          cur := { cur4 with connectionAttempts := setDel cur4.connectionAttempts newUser.id }
          liveConns := live1 }, [])
  else ({ w with cur := cur1 }, [])

/-- Delivery of one user-joined event to the client: socket.io invokes every
registered listener in registration order, each over the state current when
it runs. -/
def deliverUserJoined (w : ClientWorld) (newUser : SUser)
    (snapshot : List SUser) (offerSucceeds : Bool) :
    ClientWorld × List ClientEmit :=
  w.joinedListeners.foldl
    (fun acc cap =>
      let r := userJoinedListenerRun cap newUser snapshot offerSucceeds acc.1
      (r.1, acc.2 ++ r.2))
    (w, [])

/-- A re-run of the socket-listeners effect after a state change: the effect
returns no cleanup, so the old listeners remain registered and a new listener
closing over the now-current state is appended. -/
def reregisterListeners (w : ClientWorld) : ClientWorld :=
  { w with joinedListeners := w.joinedListeners ++ [w.cur] }

/-- The world after the client acquired its stream with no connections yet:
the listeners effect has run once, its user-joined listener capturing cs0. -/
def w0 : ClientWorld := { cur := cs0, joinedListeners := [cs0], liveConns := [] }

/-- After the first user-joined for Bob (offer succeeds): the listener
created the first connection, and the ensuing peerConnections change made
the cleanup-less effect register a second listener capturing the new state. -/
def w1 : ClientWorld :=
  reregisterListeners (deliverUserJoined w0 bobU [selfU, bobU] true).1

/-- After a duplicate delivery of the same user-joined for Bob. -/
def w2 : ClientWorld := (deliverUserJoined w1 bobU [selfU, bobU] true).1


theorem aget_aset_self {β : Type} (m : List (String × β)) (k : String) (v : β) :
    aget (aset m k v) k = some v := by
  induction m with
  | nil => simp [aset, aget]
  | cons p rest ih =>
    obtain ⟨k₀, v₀⟩ := p
    by_cases h : k₀ = k
    · simp [aset, aget, h]
    · simp [aset, aget, h, ih]

theorem aget_aset_ne {β : Type} (m : List (String × β)) (k : String) (v : β)
    (k' : String) (h : k' ≠ k) : aget (aset m k v) k' = aget m k' := by
  induction m with
  | nil => simp [aset, aget, Ne.symm h]
  | cons p rest ih =>
    obtain ⟨k₀, v₀⟩ := p
    by_cases hk : k₀ = k
    · subst hk
      simp [aset, aget, Ne.symm h]
    · simp [aset, aget, hk, ih]

theorem aset_ne_nil {β : Type} (m : List (String × β)) (k : String) (v : β) :
    aset m k v ≠ [] := by
  cases m with
  | nil => simp [aset]
  | cons p rest =>
    obtain ⟨k₀, v₀⟩ := p
    by_cases h : k₀ = k <;> simp [aset, h]

theorem aget_adel_self {β : Type} (m : List (String × β)) (k : String) :
    aget (adel m k) k = none := by
  induction m with
  | nil => simp [adel, aget]
  | cons p rest ih =>
    obtain ⟨k₀, v₀⟩ := p
    by_cases h : k₀ = k
    · simpa [adel, List.filter_cons, h] using ih
    · simpa [adel, aget, List.filter_cons, h] using ih

theorem aget_adel_ne {β : Type} (m : List (String × β)) (k k' : String)
    (h : k' ≠ k) : aget (adel m k) k' = aget m k' := by
  induction m with
  | nil => simp [adel, aget]
  | cons p rest ih =>
    obtain ⟨k₀, v₀⟩ := p
    by_cases hk : k₀ = k
    · subst hk
      simpa [adel, aget, List.filter_cons, Ne.symm h] using ih
    · simp [adel] at ih
      simp [adel, aget, List.filter_cons, hk, ih]

/-- Either the looked-up key is the freshly set one, or the binding is an old one. -/
theorem aget_aset_cases {β : Type} {m : List (String × β)} {k k' : String}
    {v w : β} (h : aget (aset m k v) k' = some w) :
    (k' = k ∧ w = v) ∨ aget m k' = some w := by
  by_cases hk : k' = k
  · subst hk
    rw [aget_aset_self] at h
    exact Or.inl ⟨rfl, (Option.some_inj.mp h).symm⟩
  · rw [aget_aset_ne _ _ _ _ hk] at h
    exact Or.inr h

theorem noEmptyRooms_joinRoom (s : ServerState) (sid code name : String)
    (h : noEmptyRooms s) : noEmptyRooms (joinRoom s sid code name).1 := by
  intro c r hcr
  cases hr : aget s.rooms code with
  | none =>
      simp only [joinRoom, hr] at hcr
      exact h c r hcr
  | some room =>
      simp only [joinRoom, hr] at hcr
      rcases aget_aset_cases hcr with ⟨hc, hreq⟩ | hold
      · subst hreq
        exact aset_ne_nil _ _ _
      · exact h c r hold

theorem noEmptyRooms_createRoom (s : ServerState) (sid name code : String)
    (now : Nat) (h : noEmptyRooms s) :
    noEmptyRooms (createRoom s sid name code now).1 := by
  intro c r hcr
  simp only [createRoom] at hcr
  rcases aget_aset_cases hcr with ⟨hc, hreq⟩ | hold
  · subst hreq
    exact aset_ne_nil _ _ _
  · exact h c r hold

theorem noEmptyRooms_sendMessage (s : ServerState) (sid text mid : String)
    (now : Nat) (h : noEmptyRooms s) :
    noEmptyRooms (sendMessage s sid text mid now).1 := by
  intro c r hcr
  cases hu : aget s.users sid with
  | none =>
      simp only [sendMessage, hu] at hcr
      exact h c r hcr
  | some user =>
      cases hr : aget s.rooms user.roomCode with
      | none =>
          simp only [sendMessage, hu, hr] at hcr
          exact h c r hcr
      | some room =>
          simp only [sendMessage, hu, hr] at hcr
          rcases aget_aset_cases hcr with ⟨hc, hreq⟩ | hold
          · subst hreq
            exact h user.roomCode room hr
          · exact h c r hold

theorem noEmptyRooms_toggleAudio (s : ServerState) (sid : String)
    (h : noEmptyRooms s) : noEmptyRooms (toggleAudio s sid).1 := by
  intro c r hcr
  cases hu : aget s.users sid with
  | none =>
      simp only [toggleAudio, hu] at hcr
      exact h c r hcr
  | some user =>
      cases hr : aget s.rooms user.roomCode with
      | none =>
          simp only [toggleAudio, hu, hr] at hcr
          exact h c r hcr
      | some room =>
          by_cases hh : ahas room.users sid = true
          · simp only [toggleAudio, hu, hr, hh, if_true] at hcr
            rcases aget_aset_cases hcr with ⟨hc, hreq⟩ | hold
            · subst hreq
              exact aset_ne_nil _ _ _
            · exact h c r hold
          · simp [toggleAudio, hu, hr, hh] at hcr
            exact h c r hcr

theorem noEmptyRooms_disconnect (s : ServerState) (sid : String)
    (h : noEmptyRooms s) : noEmptyRooms (disconnect s sid).1 := by
  intro c r hcr
  cases hu : aget s.users sid with
  | none =>
      simp only [disconnect, hu] at hcr
      exact h c r hcr
  | some user =>
      cases hr : aget s.rooms user.roomCode with
      | none =>
          simp only [disconnect, hu, hr] at hcr
          exact h c r hcr
      | some room =>
          by_cases hlen : (adel room.users sid).length = 0
          · simp only [disconnect, hu, hr, if_pos hlen] at hcr
            by_cases hc : c = user.roomCode
            · subst hc
              rw [aget_adel_self] at hcr
              exact Option.noConfusion hcr
            · rw [aget_adel_ne _ _ _ hc] at hcr
              exact h c r hcr
          · simp only [disconnect, hu, hr, if_neg hlen] at hcr
            rcases aget_aset_cases hcr with ⟨hc, hreq⟩ | hold
            · subst hreq
              intro hnil
              apply hlen
              have hd : adel room.users sid = [] := hnil
              rw [hd]
              rfl
            · exact h c r hold

theorem noEmptyRooms_serverStep (s : ServerState) (e : ServerEvent)
    (h : noEmptyRooms s) : noEmptyRooms (serverStep s e).1 := by
  cases e with
  | joinRoomEvt sid code name => exact noEmptyRooms_joinRoom s sid code name h
  | createRoomEvt sid name code now => exact noEmptyRooms_createRoom s sid name code now h
  | offerEvt sid t p => exact h
  | answerEvt sid t p => exact h
  | iceEvt sid t p => exact h
  | sendMessageEvt sid text mid now => exact noEmptyRooms_sendMessage s sid text mid now h
  | toggleAudioEvt sid => exact noEmptyRooms_toggleAudio s sid h
  | disconnectEvt sid => exact noEmptyRooms_disconnect s sid h

theorem noEmptyRooms_srv0 : noEmptyRooms srv0 := by
  intro c r h
  by_cases hc : ("AB12CD" : String) = c
  · simp only [srv0, aget, if_pos hc] at h
    cases Option.some_inj.mp h
    decide
  · simp only [srv0, aget, if_neg hc] at h
    exact Option.noConfusion h

theorem aget_foldl_offer (scur : String) (m0 : List (String × PC))
    (tracks : List String) (r : String) (pc : PC)
    (hget : aget m0 r = some pc) :
    ∀ (l : List SUser) (acc : ClientState × List ClientEmit),
      aget acc.1.peerConnections r = some pc →
      aget (List.foldl
        (fun acc u =>
          if u.id != scur && !(ahas m0 u.id) then offerNewConn tracks u.id acc else acc)
        acc l).1.peerConnections r = some pc := by
  intro l
  induction l with
  | nil =>
      intro acc hacc
      exact hacc
  | cons u rest ih =>
      intro acc hacc
      rw [List.foldl_cons]
      apply ih
      by_cases hcond : (u.id != scur && !(ahas m0 u.id)) = true
      · rw [if_pos hcond]
        have hur : u.id ≠ r := by
          intro he
          rw [he] at hcond
          simp [ahas, hget] at hcond
        simp only [offerNewConn, createPC]
        rw [aget_aset_ne _ _ _ _ (Ne.symm hur)]
        exact hacc
      · rw [if_neg hcond]
        exact hacc

/-- C4: a join-room request whose code is not bound in the live rooms map
makes the relay answer the sender with error "Room not found" and nothing
else, and leaves the whole relay state (rooms and users maps) unchanged: no
room is created, no participant record stored, no membership modified. -/
theorem c4_join_unknown_room_error_no_mutation (s : ServerState)
    (sid code name : String) (h : aget s.rooms code = none) :
    joinRoom s sid code name
      = (s, [(Recipient.toSender, SEvent.error "Room not found")]) := by
  simp [joinRoom, h]

theorem c4_witness :
    joinRoom srv0 "x9" "ZZ99ZZ" "Carol"
      = (srv0, [(Recipient.toSender, SEvent.error "Room not found")]) :=
  c4_join_unknown_room_error_no_mutation srv0 "x9" "ZZ99ZZ" "Carol" (by decide)

/-- C9: each negotiation message (offer, answer, ice-candidate) received by
the relay leaves the relay state untouched (no validation, no buffering, no
retry) and produces exactly one emission, addressed to the room named by the
message's target field, with the payload unmodified and the sender field set
to the origin's socket id; since that room is the target's personal id-room,
the recipient set is exactly the target when the sender did not target
itself, so no other connection receives the message. -/
theorem c9_signal_forwarded_unmodified_to_target (s : ServerState)
    (sid target payload : String) (h : sid ≠ target) :
    relayOffer s sid target payload
      = (s, [(Recipient.toRoomExceptSender target, SEvent.offer payload sid)])
  ∧ relayAnswer s sid target payload
      = (s, [(Recipient.toRoomExceptSender target, SEvent.answer payload sid)])
  ∧ relayIce s sid target payload
      = (s, [(Recipient.toRoomExceptSender target, SEvent.iceCandidate payload sid)])
  ∧ idRoomRecipients sid target = [target] := by
  refine ⟨rfl, rfl, rfl, ?_⟩
  simp [idRoomRecipients, Ne.symm h]

theorem c9_witness :
    relayOffer srv0 "x1" "x2" "sdp0"
      = (srv0, [(Recipient.toRoomExceptSender "x2", SEvent.offer "sdp0" "x1")])
  ∧ relayAnswer srv0 "x1" "x2" "sdp1"
      = (srv0, [(Recipient.toRoomExceptSender "x2", SEvent.answer "sdp1" "x1")])
  ∧ relayIce srv0 "x1" "x2" "cand0"
      = (srv0, [(Recipient.toRoomExceptSender "x2", SEvent.iceCandidate "cand0" "x1")])
  ∧ idRoomRecipients "x1" "x2" = ["x2"] :=
  ⟨(c9_signal_forwarded_unmodified_to_target srv0 "x1" "x2" "sdp0" (by decide)).1,
   (c9_signal_forwarded_unmodified_to_target srv0 "x1" "x2" "sdp1" (by decide)).2.1,
   (c9_signal_forwarded_unmodified_to_target srv0 "x1" "x2" "cand0" (by decide)).2.2.1,
   (c9_signal_forwarded_unmodified_to_target srv0 "x1" "x2" "cand0" (by decide)).2.2.2⟩

/-- C3: disconnect is idempotent — for a socket id that is not a member it is
a complete no-op; every relay operation preserves the no-empty-live-room
invariant; and when removing a member empties its room, the same disconnect
operation deletes the room, after which a join with that code answers
error "Room not found" and changes nothing. -/
theorem c3_leave_idempotent_empty_room_destroyed (s : ServerState)
    (cid : String) :
    (aget s.users cid = none → disconnect s cid = (s, []))
  ∧ (noEmptyRooms s → ∀ e, noEmptyRooms (serverStep s e).1)
  ∧ (∀ u room, aget s.users cid = some u → aget s.rooms u.roomCode = some room →
      adel room.users cid = [] →
      aget (disconnect s cid).1.rooms u.roomCode = none
      ∧ ∀ sid name, joinRoom (disconnect s cid).1 sid u.roomCode name
          = ((disconnect s cid).1,
             [(Recipient.toSender, SEvent.error "Room not found")])) := by
  refine ⟨?_, ?_, ?_⟩
  · intro h
    simp [disconnect, h]
  · intro h e
    exact noEmptyRooms_serverStep s e h
  · intro u room hu hr hemp
    have hnone : aget (disconnect s cid).1.rooms u.roomCode = none := by
      simp [disconnect, hu, hr, hemp, aget_adel_self]
    exact ⟨hnone, fun sid name => by simp [joinRoom, hnone]⟩

theorem c3_witness :
    disconnect srv0 "zz" = (srv0, [])
  ∧ noEmptyRooms (serverStep srv0 (ServerEvent.disconnectEvt "x1")).1
  ∧ aget (disconnect srv0 "x1").1.rooms "AB12CD" = none
  ∧ joinRoom (disconnect srv0 "x1").1 "x9" "AB12CD" "Carol"
      = ((disconnect srv0 "x1").1,
         [(Recipient.toSender, SEvent.error "Room not found")]) :=
  ⟨(c3_leave_idempotent_empty_room_destroyed srv0 "zz").1 (by decide),
   (c3_leave_idempotent_empty_room_destroyed srv0 "zz").2.1 noEmptyRooms_srv0
     (ServerEvent.disconnectEvt "x1"),
   ((c3_leave_idempotent_empty_room_destroyed srv0 "x1").2.2 aliceU roomA
     (by decide) (by decide) (by decide)).1,
   ((c3_leave_idempotent_empty_room_destroyed srv0 "x1").2.2 aliceU roomA
     (by decide) (by decide) (by decide)).2 "x9" "Carol"⟩

/-- C2: refuted on the code — `generateRoomCode` draws a random string
without consulting the live room set and the create-room handler stores the
new room with a plain `Map.set`, so a create-room request whose generated
code collides with a live room replaces that room wholesale: here room
AB12CD, live with member Alice, is overwritten by Bob's new room and Alice's
membership entry is destroyed.  This contradicts the code's own stated
intent of generating unique room codes. -/
theorem c2_colliding_code_overwrites_live_room :
    aget srv0.rooms "AB12CD" = some roomA
  ∧ ahas roomA.users "x1" = true
  ∧ (aget (createRoom srv0 "x2" "Bob" "AB12CD" 5).1.rooms "AB12CD").map
      (fun r => ahas r.users "x1") = some false
  ∧ (aget (createRoom srv0 "x2" "Bob" "AB12CD" 5).1.rooms "AB12CD").map
      (fun r => avalues r.users) = some [bobS] := by
  refine ⟨by decide, by decide, by decide, by decide⟩

/-- Per-invocation guard property of the three creation paths, stated
against the state the invocation reads: when that state maps a non-closed
connection for a remote id, the offer handler either returns at the glare
guard or renegotiates the very same connection (same allocation number,
fresh-id counter untouched), a user-joined notification for that id leaves
the connection map and the counter untouched, and startCall skips every
member that already has an entry.  This is what the source's guards
implement for one invocation; it does not lift to the running program's
dispatch, where accumulated stale listeners guard on captured snapshots (see
the ClientWorld development and the C1 theorem). -/
theorem guards_single_invocation_preserve_connection (s : ClientState)
    (r : String) (pc : PC) (hget : aget s.peerConnections r = some pc)
    (hlive : pc.signaling ≠ Signaling.closed) :
    (∀ payload, ∃ pc',
        aget (handleOffer s payload r).1.peerConnections r = some pc'
        ∧ pc'.pcId = pc.pcId
        ∧ (handleOffer s payload r).1.nextPCId = s.nextPCId)
  ∧ (∀ u snap ok, u.id = r →
        aget (userJoinedClient s u snap ok).1.peerConnections r = some pc
        ∧ (userJoinedClient s u snap ok).1.nextPCId = s.nextPCId)
  ∧ (∀ tracks, aget (startCall s tracks).1.peerConnections r = some pc) := by
  refine ⟨?_, ?_, ?_⟩
  · intro payload
    by_cases hg : pc.signaling = Signaling.haveLocalOffer
        ∨ pc.signaling = Signaling.haveRemoteOffer
    · refine ⟨pc, ?_, rfl, ?_⟩
      · simp [handleOffer, hget, hlive, hg]
      · simp [handleOffer, hget, hlive, hg]
    · refine ⟨{ pc with signaling := Signaling.stable, remoteDescSet := true, localDescSet := true }, ?_, rfl, ?_⟩
      · simp [handleOffer, hget, hlive, hg, aget_aset_self]
      · simp [handleOffer, hget, hlive, hg]
  · intro u snap ok hid
    have hhas : ahas s.peerConnections u.id = true := by
      rw [hid]
      simp [ahas, hget]
    constructor
    · simp [userJoinedClient, hhas, hget]
    · simp [userJoinedClient, hhas]
  · intro tracks
    simp only [startCall]
    exact aget_foldl_offer s.currentUserId s.peerConnections tracks r pc hget
      s.users _ hget

/-- Instantiation of the per-invocation guard property at a concrete state. -/
theorem guards_single_invocation_example :
    (∃ pc', aget (handleOffer cs2 "offer1" "u2").1.peerConnections "u2" = some pc'
        ∧ pc'.pcId = pcW.pcId
        ∧ (handleOffer cs2 "offer1" "u2").1.nextPCId = cs2.nextPCId)
  ∧ (aget (userJoinedClient cs2 bobU [selfU, bobU] true).1.peerConnections "u2"
        = some pcW
     ∧ (userJoinedClient cs2 bobU [selfU, bobU] true).1.nextPCId = cs2.nextPCId)
  ∧ aget (startCall cs2 ["mic0"]).1.peerConnections "u2" = some pcW :=
  ⟨(guards_single_invocation_preserve_connection cs2 "u2" pcW (by decide)
      (by decide)).1 "offer1",
   (guards_single_invocation_preserve_connection cs2 "u2" pcW (by decide)
      (by decide)).2.1 bobU [selfU, bobU] true (by decide),
   (guards_single_invocation_preserve_connection cs2 "u2" pcW (by decide)
      (by decide)).2.2 ["mic0"]⟩

/-- C1: refuted on the program — the listeners effect returns no cleanup and
re-registers whenever its handler callbacks are rebuilt, so every event runs
all accumulated listeners, each guarding on its own captured snapshot.
After the first user-joined for Bob, one connection (allocation 0) is live
and mapped, and a stale listener that captured the pre-call state is still
registered.  A duplicate delivery of the same user-joined re-runs that stale
listener, whose captured connection map and pending-attempt set are empty:
it passes the guard, creates a second connection (allocation 1) for u2, and
emits a second offer, while the map overwrite closes nothing — afterwards two
live connections for u2 coexist (the first live but unmapped), falsifying
at-most-one-live-connection-per-remote-id and duplicate-delivery
idempotence.  The newer listener, whose snapshot holds u2, correctly no-ops. -/
theorem c1_duplicate_join_yields_two_live_connections :
    w1.liveConns = [(0, "u2")]
  ∧ (aget w1.cur.peerConnections "u2").map (fun q => q.pcId) = some 0
  ∧ w2.liveConns = [(0, "u2"), (1, "u2")]
  ∧ (deliverUserJoined w1 bobU [selfU, bobU] true).2 = [ClientEmit.offerMsg "u2"]
  ∧ (aget w2.cur.peerConnections "u2").map (fun q => q.pcId) = some 1 := by
  refine ⟨by decide, by decide, by decide, by decide, by decide⟩

/-- C5: an incoming answer is applied — the remote description recorded and
signaling reaching stable — exactly when the connection for the sender is in
have-local-offer; with no connection for the sender, or a connection in any
other signaling state, the handler is a total function returning the state
and emissions unchanged (the no-op leaves signalingState untouched; the
source wraps the apply in try/catch, so nothing escapes). -/
theorem c5_answer_applied_only_in_have_local_offer (s : ClientState)
    (payload sender : String) :
    (aget s.peerConnections sender = none →
        handleAnswer s payload sender = (s, []))
  ∧ (∀ pc, aget s.peerConnections sender = some pc →
        pc.signaling ≠ Signaling.haveLocalOffer →
        handleAnswer s payload sender = (s, []))
  ∧ (∀ pc, aget s.peerConnections sender = some pc →
        pc.signaling = Signaling.haveLocalOffer →
        (aget (handleAnswer s payload sender).1.peerConnections sender).map
            (fun q => q.signaling) = some Signaling.stable
        ∧ (aget (handleAnswer s payload sender).1.peerConnections sender).map
            (fun q => q.remoteDescSet) = some true) := by
  refine ⟨?_, ?_, ?_⟩
  · intro h
    simp [handleAnswer, h]
  · intro pc h hst
    simp [handleAnswer, h, hst]
  · intro pc h hst
    constructor
    · simp [handleAnswer, h, hst, aget_aset_self]
    · simp [handleAnswer, h, hst, aget_aset_self]

theorem c5_witness :
    handleAnswer cs2 "ans0" "nobody" = (cs2, [])
  ∧ handleAnswer cs2 "ans0" "u2" = (cs2, [])
  ∧ (aget (handleAnswer cs1 "ans0" "u2").1.peerConnections "u2").map
      (fun q => q.signaling) = some Signaling.stable :=
  ⟨(c5_answer_applied_only_in_have_local_offer cs2 "ans0" "nobody").1 (by decide),
   (c5_answer_applied_only_in_have_local_offer cs2 "ans0" "u2").2.1 pcW
     (by decide) (by decide),
   ((c5_answer_applied_only_in_have_local_offer cs1 "ans0" "u2").2.2 pcO
     (by decide) (by decide)).1⟩

/-- C6: an incoming offer that finds the sender's connection in
have-local-offer or have-remote-offer is ignored completely — the handler
returns the state unchanged and emits nothing (no remote description set, no
answer created), so a colliding offer cannot corrupt an in-flight handshake. -/
theorem c6_glare_offer_ignored (s : ClientState) (payload sender : String)
    (pc : PC) (h : aget s.peerConnections sender = some pc)
    (hst : pc.signaling = Signaling.haveLocalOffer
        ∨ pc.signaling = Signaling.haveRemoteOffer) :
    handleOffer s payload sender = (s, []) := by
  have hnc : pc.signaling ≠ Signaling.closed := by
    rcases hst with h1 | h1 <;> simp [h1]
  simp [handleOffer, h, hnc, hst]

theorem c6_witness : handleOffer cs1 "offer2" "u2" = (cs1, []) :=
  c6_glare_offer_ignored cs1 "offer2" "u2" pcO (by decide) (by decide)

/-- C7 counterexample: the claim says a candidate arriving before the remote
description is set is buffered and applied later, but the client has no
candidate queue — in cs1 the connection to Bob has no remote description, and
handling Bob's candidate returns the state exactly unchanged, so the
candidate is retained nowhere; even after the answer later arrives and the
remote description is set, the applied-candidate list is still empty. -/
theorem c7_counterexample_candidate_dropped_not_buffered :
    (aget cs1.peerConnections "u2").map (fun q => q.remoteDescSet) = some false
  ∧ handleIceCandidate cs1 "cand1" "u2" = (cs1, [])
  ∧ (aget (handleAnswer (handleIceCandidate cs1 "cand1" "u2").1 "ans1"
        "u2").1.peerConnections "u2").map (fun q => q.appliedCandidates)
      = some [] := by
  refine ⟨by decide, by decide, by decide⟩

/-- C7 as amended: an incoming candidate for a connection that exists, is not
closed and has its remote description set is applied immediately; for a
connection without a remote description the add fails inside the catch and
the candidate is dropped, not buffered; and a candidate for a closed or
absent connection is a silent no-op (the handler is total, so nothing
throws). -/
theorem c7_ice_applied_immediately_or_dropped (s : ClientState)
    (cand sender : String) :
    (aget s.peerConnections sender = none →
        handleIceCandidate s cand sender = (s, []))
  ∧ (∀ pc, aget s.peerConnections sender = some pc →
        pc.signaling = Signaling.closed →
        handleIceCandidate s cand sender = (s, []))
  ∧ (∀ pc, aget s.peerConnections sender = some pc →
        pc.signaling ≠ Signaling.closed → pc.remoteDescSet = true →
        (aget (handleIceCandidate s cand sender).1.peerConnections sender).map
            (fun q => q.appliedCandidates)
          = some (pc.appliedCandidates ++ [cand]))
  ∧ (∀ pc, aget s.peerConnections sender = some pc →
        pc.signaling ≠ Signaling.closed → pc.remoteDescSet = false →
        handleIceCandidate s cand sender = (s, [])) := by
  refine ⟨?_, ?_, ?_, ?_⟩
  · intro h
    simp [handleIceCandidate, h]
  · intro pc h hcl
    simp [handleIceCandidate, h, hcl]
  · intro pc h hcl hrd
    simp [handleIceCandidate, h, hcl, hrd, aget_aset_self]
  · intro pc h hcl hrd
    simp [handleIceCandidate, h, hcl, hrd]

theorem c7_witness :
    handleIceCandidate cs0 "cand2" "u2" = (cs0, [])
  ∧ (aget (handleIceCandidate cs2 "cand2" "u2").1.peerConnections "u2").map
      (fun q => q.appliedCandidates) = some ["cand2"]
  ∧ handleIceCandidate cs1 "cand2" "u2" = (cs1, []) :=
  ⟨(c7_ice_applied_immediately_or_dropped cs0 "cand2" "u2").1 (by decide),
   (c7_ice_applied_immediately_or_dropped cs2 "cand2" "u2").2.2.1 pcW
     (by decide) (by decide) (by decide),
   (c7_ice_applied_immediately_or_dropped cs1 "cand2" "u2").2.2.2 pcO
     (by decide) (by decide) (by decide)⟩

/-- C8: evaluated at the failing scenario — the user-joined handler records
Bob in the pending-attempt set and, when the offer creation succeeds, never
removes him (only the failure branch deletes the entry, as the first two
conjuncts show); after Bob leaves (which clears his connection but not the
attempt entry) and rejoins, the guard sees the stale entry and the handler
reduces to the no-branch, creating no connection for him: the set permanently
blocks the user-joined path for that remote id, contrary to the claim's
"cleared on success or failure". -/
theorem c8_attempt_entry_kept_on_success_blocks_rejoin :
    (userJoinedClient cs0 bobU [selfU, bobU] false).1.connectionAttempts = []
  ∧ cs1.connectionAttempts = ["u2"]
  ∧ (userLeftClient cs1 "u2" [selfU]).1.connectionAttempts = ["u2"]
  ∧ aget (userLeftClient cs1 "u2" [selfU]).1.peerConnections "u2" = none
  ∧ (userJoinedClient (userLeftClient cs1 "u2" [selfU]).1 bobU
        [selfU, bobU] true).1
      = { (userLeftClient cs1 "u2" [selfU]).1 with users := [selfU, bobU] }
  ∧ aget (userJoinedClient (userLeftClient cs1 "u2" [selfU]).1 bobU
        [selfU, bobU] true).1.peerConnections "u2" = none := by
  refine ⟨by decide, by decide, by decide, by decide, by decide, by decide⟩

/-- C10: the socket-listeners effect registers handlers exactly for the nine
listed events; user-media-changed is not among them, so delivering the
relay's user-media-changed broadcast leaves the client state — in particular
the users list with each member's isAudioEnabled flag — unchanged and emits
nothing. -/
theorem c10_user_media_changed_has_no_handler (s : ClientState)
    (uid : String) (b : Bool) :
    handledClientEvents
      = ["room-created", "room-joined", "user-joined", "user-left",
         "new-message", "error", "offer", "answer", "ice-candidate"]
  ∧ handledClientEvents.contains "user-media-changed" = false
  ∧ clientDispatch s (ClientEvent.userMediaChangedEvt uid b) = (s, [])
  ∧ (clientDispatch s (ClientEvent.userMediaChangedEvt uid b)).1.users
      = s.users :=
  ⟨rfl, by decide, rfl, rfl⟩

end VoiceApp
